import Mathlib

/-!
Verification of the batch video-transcription pipeline (src/main.py).

The program is a sequential three-step pipeline (extract audio, transcribe,
write text) wrapped in a loop over discovered video files.  We shallowly embed
it here:

* File names and paths are lists of characters (`Name`), so that suffix
  reasoning about glob patterns such as `*.mp4` is structural.
* The filesystem is an association list from paths to file contents; it models
  the output side (the intermediate `<stem>_temp.wav` artifacts and the
  `<stem>.txt` transcripts).
* External collaborators (moviepy extraction, whisper transcription, the
  `open`/`write` call, `Path.unlink`) are fallible: an environment record
  says, for each call, whether it returns normally or raises, and with which
  Python exception.  `except Exception` clauses catch ordinary exceptions but
  not `KeyboardInterrupt`, exactly as in Python; an exception raised inside a
  `finally` block replaces any exception in flight, again as in Python.
* Every `print` is recorded as a structured log message, so statements such as
  "the failure is logged with the file name and cause" are about the log.
-/

/-- A file name or path: a list of characters. -/
abbrev Name := List Char

/-- Python exceptions as far as the program distinguishes them:
ordinary `Exception`s (carrying their message) and `KeyboardInterrupt`.
`except Exception` catches only the former. -/
inductive PyExc where
  | err (msg : String)
  | interrupt
deriving DecidableEq

/-- Result of one call into an external collaborator: a normal return or a
raised Python exception. -/
inductive Outcome (α : Type) where
  | ok (val : α)
  | raised (e : PyExc)
deriving DecidableEq

/-- Where the whisper model was resolved from: the local cache file
`whisper/<model>.pt`, or by name through the library (network). -/
inductive ModelSource where
  | localFile (path : Name)
  | byName (model : String)
deriving DecidableEq

/-- The structured log: one constructor per `print` site of src/main.py. -/
inductive Msg where
  | loadingModel (model : String)
  | foundLocalModel (path : Name)
  | noLocalModel (path : Name)
  | loadingFromInternet
  | modelResolved (src : ModelSource)
  | dirsEnsured
  | processingHeader (name : Name)
  | extracting (name : Name)
  | audioSaved (path : Name)
  | extractError (cause : String)
  | transcribing (name : Name)
  | transcribeError (cause : String)
  | textSaved (path : Name)
  | saveError (cause : String)
  | processError (name : Name) (cause : String)
  | processSuccess (name : Name)
  | tempDeleted (name : Name)
  | noVideosFound
  | supportedFormats (exts : List Name)
  | foundCount (n : Nat)
  | batchDone
  | fileNotFound (path : Name)
  | interrupted
  | criticalError (cause : String)
deriving DecidableEq

/-- The output-side filesystem: an association list from paths to contents. -/
structure FS where
  files : List (Name × String)
deriving DecidableEq

/-- Read a file: the content stored at `p`, if any. -/
def FS.read (fs : FS) (p : Name) : Option String :=
  (fs.files.find? (fun kv => kv.1 == p)).map (fun kv => kv.2)

/-- `Path.exists()` on the modelled filesystem. -/
def FS.existsF (fs : FS) (p : Name) : Bool :=
  (fs.read p).isSome

/-- `open(p, "w").write(c)`: create or overwrite the file at `p`. -/
def FS.write (fs : FS) (p : Name) (c : String) : FS :=
  ⟨(p, c) :: fs.files.filter (fun kv => !(kv.1 == p))⟩

/-- `Path.unlink()`: remove the file at `p`. -/
def FS.unlink (fs : FS) (p : Name) : FS :=
  ⟨fs.files.filter (fun kv => !(kv.1 == p))⟩

/-- `Path(p).name`: the final path component (characters after the last `/`). -/
def baseName (n : Name) : Name :=
  (n.reverse.takeWhile (fun c => !(c == '/'))).reverse

/-- Index of the last `.` in a name, if any (CPython's `str.rfind`). -/
def lastDotIdx (n : Name) : Option Nat :=
  ((n.enum.filter (fun p => p.2 == '.')).map (fun p => p.1)).getLast?

/-- `PurePath.stem` restricted to a single component: CPython keeps the whole
name unless the last dot sits strictly inside it (`0 < i < len - 1`). -/
def pyStemComp (n : Name) : Name :=
  match lastDotIdx n with
  | some i => if 0 < i ∧ i < n.length - 1 then n.take i else n
  | none => n

/-- `Path(p).stem`: stem of the final component. -/
def pyStem (n : Name) : Name :=
  pyStemComp (baseName n)

/-- `self.output_dir / f"{video_path.stem}_temp.wav"` (src/main.py:109). -/
def audioPathOf (videoPath : Name) : Name :=
  "output/".data ++ pyStem videoPath ++ "_temp.wav".data

/-- `self.output_dir / f"{video_path.stem}.txt"` (src/main.py:110). -/
def textPathOf (videoPath : Name) : Name :=
  "output/".data ++ pyStem videoPath ++ ".txt".data

/-- Placeholder content of an extracted waveform file; the program never
inspects it, it only hands the path to the recognizer. -/
def audioMarker : String := "wav"

/-- Behaviour of the external collaborators while one video is processed:
whether each call returns or raises, what the recognizer returns, and whether
a failed extraction leaves a partial file behind. -/
structure VideoEnv where
  extract : Outcome Unit
  extractLeavesFile : Bool
  transcribe : Outcome String
  save : Outcome Unit
  unlink : Outcome Unit
deriving DecidableEq

/-- Log produced by an `except Exception as e: print(...)` clause: ordinary
exceptions are reported, a `KeyboardInterrupt` passes through unreported. -/
def excLog (mk : String → Msg) : PyExc → List Msg
  | .err m => [mk m]
  | .interrupt => []

/-- Result of processing: final filesystem, log, and the exception (if any)
that escaped the call. -/
structure PVRes where
  fs : FS
  log : List Msg
  outcome : Option PyExc
deriving DecidableEq

/-- `extract_audio` (src/main.py:43-62): write the waveform to `audioPath`, or
log the cause and re-raise.  A failed extraction may or may not have left a
partial file behind (`extractLeavesFile`). -/
def extract_audio (v : VideoEnv) (fs : FS) (videoPath audioPath : Name) :
    FS × List Msg × Option PyExc :=
  match v.extract with
  | .ok _ =>
    (fs.write audioPath audioMarker,
     [Msg.extracting (baseName videoPath), Msg.audioSaved audioPath], none)
  | .raised e =>
    (if v.extractLeavesFile then fs.write audioPath audioMarker else fs,
     Msg.extracting (baseName videoPath) :: excLog Msg.extractError e, some e)

/-- `transcribe_audio` (src/main.py:64-81): run the recognizer on the audio
file, or log the cause and re-raise. -/
def transcribe_audio (v : VideoEnv) (audioPath : Name) :
    List Msg × Outcome String :=
  match v.transcribe with
  | .ok t => ([Msg.transcribing (baseName audioPath)], .ok t)
  | .raised e =>
    (Msg.transcribing (baseName audioPath) :: excLog Msg.transcribeError e,
     .raised e)

/-- `save_text` (src/main.py:83-97): overwrite `outputPath` with `text`, or
log the cause and re-raise. -/
def save_text (v : VideoEnv) (fs : FS) (text : String) (outputPath : Name) :
    FS × List Msg × Option PyExc :=
  match v.save with
  | .ok _ => (fs.write outputPath text, [Msg.textSaved outputPath], none)
  | .raised e => (fs, excLog Msg.saveError e, some e)

/-- The `try` block of `process_video` (src/main.py:112-122): extract, then
transcribe, then save, stopping at the first raised exception. -/
def pvTryBody (v : VideoEnv) (fs : FS) (videoPath : Name) : PVRes :=
  let ap := audioPathOf videoPath
  let tp := textPathOf videoPath
  match extract_audio v fs videoPath ap with
  | (fs1, l1, some e) => ⟨fs1, l1, some e⟩
  | (fs1, l1, none) =>
    match transcribe_audio v ap with
    | (l2, .raised e) => ⟨fs1, l1 ++ l2, some e⟩
    | (l2, .ok text) =>
      match save_text v fs1 text tp with
      | (fs2, l3, some e) => ⟨fs2, l1 ++ l2 ++ l3, some e⟩
      | (fs2, l3, none) =>
        ⟨fs2, l1 ++ l2 ++ l3 ++ [Msg.processSuccess (baseName videoPath)], none⟩

/-- `process_video` (src/main.py:99-131).  The `except Exception` clause
catches ordinary exceptions from the body and logs them with the file name
and cause; `KeyboardInterrupt` passes through.  The `finally` clause deletes
the intermediate audio file if it exists; an exception raised by that
deletion replaces whatever was in flight (Python `finally` semantics). -/
def process_video (v : VideoEnv) (fs : FS) (videoPath : Name) : PVRes :=
  let nm := baseName videoPath
  let ap := audioPathOf videoPath
  let body := pvTryBody v fs videoPath
  let caught : List Msg × Option PyExc :=
    match body.outcome with
    | some (.err m) => ([Msg.processError nm m], none)
    | some .interrupt => ([], some PyExc.interrupt)
    | none => ([], none)
  let preLog := Msg.processingHeader nm :: body.log ++ caught.1
  if body.fs.existsF ap then
    match v.unlink with
    | .ok _ => ⟨body.fs.unlink ap, preLog ++ [Msg.tempDeleted nm], caught.2⟩
    | .raised e => ⟨body.fs, preLog, some e⟩
  else ⟨body.fs, preLog, caught.2⟩

/-- The supported extensions, as written in the source set literal
(src/main.py:138).  Python iterates a `set` in an unspecified order; we fix
the literal order, which no claim depends on. -/
def video_extensions : List Name :=
  [".mp4".data, ".avi".data, ".mov".data, ".mkv".data, ".wmv".data,
   ".flv".data, ".webm".data]

/-- Uppercasing of an extension (`ext.upper()`). -/
def upperName (n : Name) : Name := n.map Char.toUpper

/-- Input discovery (src/main.py:141-144): for each extension, glob
`*<ext>` and then `*<EXT>` over the data directory and concatenate all
results.  A single-component glob `*s` matches exactly the names ending in
`s` (pathlib imposes no hidden-file convention). -/
def discoverVideos (dataFiles : List Name) : List Name :=
  video_extensions.flatMap (fun ext =>
    dataFiles.filter (fun n => ext.isSuffixOf n) ++
      dataFiles.filter (fun n => (upperName ext).isSuffixOf n))

/-- The per-video loop of `process_all_videos` (src/main.py:154-155): process
each path in order; an exception escaping `process_video` aborts the loop. -/
def runBatch (perVideo : Name → VideoEnv) (fs : FS) : List Name → PVRes
  | [] => ⟨fs, [], none⟩
  | p :: rest =>
    let r := process_video (perVideo p) fs p
    match r.outcome with
    | none =>
      let rb := runBatch perVideo r.fs rest
      ⟨rb.fs, r.log ++ rb.log, rb.outcome⟩
    | some e => ⟨r.fs, r.log, some e⟩

/-- The data directory prefix: discovered names live in `data/`. -/
def dataDirName : Name := "data/".data

/-- Behaviour of the whole environment for one run. -/
structure Env where
  localModelExists : Bool
  loadResult : Outcome Unit
  namedFileExists : Bool
  dataFiles : List Name
  perVideo : Name → VideoEnv

/-- `process_all_videos` (src/main.py:133-157): discover, warn-and-return if
nothing matched, else process each video and print the final summary. -/
def process_all_videos (env : Env) (fs : FS) : PVRes :=
  match discoverVideos env.dataFiles with
  | [] => ⟨fs, [Msg.noVideosFound, Msg.supportedFormats video_extensions], none⟩
  | v :: vs =>
    let r := runBatch env.perVideo fs ((v :: vs).map (fun n => dataDirName ++ n))
    match r.outcome with
    | none =>
      ⟨r.fs, Msg.foundCount (v :: vs).length :: r.log ++ [Msg.batchDone], none⟩
    | some e => ⟨r.fs, Msg.foundCount (v :: vs).length :: r.log, some e⟩

/-- `whisper/<model>.pt` (src/main.py:26). -/
def whisperCachePath (model : String) : Name :=
  "whisper/".data ++ model.data ++ ".pt".data

/-- `VideoToTextConverter.__init__` (src/main.py:16-41): resolve the model
from the local cache file if it exists, else by name; then ensure the
directories exist.  Loading may raise. -/
def initConverter (model : String) (env : Env) : List Msg × Outcome ModelSource :=
  let src :=
    if env.localModelExists then ModelSource.localFile (whisperCachePath model)
    else ModelSource.byName model
  let l0 :=
    Msg.loadingModel model ::
      (if env.localModelExists then [Msg.foundLocalModel (whisperCachePath model)]
       else [Msg.noLocalModel (whisperCachePath model), Msg.loadingFromInternet])
  match env.loadResult with
  | .ok _ => (l0 ++ [Msg.modelResolved src, Msg.dirsEnsured], .ok src)
  | .raised e => (l0, .raised e)

/-- Parsed command line: `--model` and the optional `--file`. -/
structure Args where
  model : String
  file : Option Name

/-- Observable result of a whole run: final filesystem, log, process exit
code, and the exception (if any) handled by the outermost `except` clauses. -/
structure RunResult where
  fs : FS
  log : List Msg
  exit : Nat
  topExc : Option PyExc
deriving DecidableEq

/-- The outermost `except` clauses of `main` (src/main.py:190-194) applied to
the result of the protected region: `KeyboardInterrupt` prints the interrupt
notice and falls through (exit code 0); any other exception prints a critical
error and exits 1. -/
def finishRun (initLog : List Msg) (r : PVRes) : RunResult :=
  match r.outcome with
  | none => ⟨r.fs, initLog ++ r.log, 0, none⟩
  | some (.err m) =>
    ⟨r.fs, initLog ++ r.log ++ [Msg.criticalError m], 1, some (PyExc.err m)⟩
  | some .interrupt =>
    ⟨r.fs, initLog ++ r.log ++ [Msg.interrupted], 0, some PyExc.interrupt⟩

/-- `main` (src/main.py:160-194).  Inside the `try`: build the converter,
then either process the single named file (after the existence check, whose
failure calls `sys.exit(1)`; note `if args.file:` is Python truthiness, so an
empty string falls back to the directory scan) or process the whole data
directory. -/
def mainRun (a : Args) (env : Env) (fs : FS) : RunResult :=
  let init := initConverter a.model env
  match init.2 with
  | .raised (.err m) =>
    ⟨fs, init.1 ++ [Msg.criticalError m], 1, some (PyExc.err m)⟩
  | .raised .interrupt =>
    ⟨fs, init.1 ++ [Msg.interrupted], 0, some PyExc.interrupt⟩
  | .ok _ =>
    match a.file with
    | some p =>
      if p.isEmpty then finishRun init.1 (process_all_videos env fs)
      else if env.namedFileExists then
        finishRun init.1 (process_video (env.perVideo p) fs p)
      else ⟨fs, init.1 ++ [Msg.fileNotFound p], 1, none⟩
    | none => finishRun init.1 (process_all_videos env fs)

/-- The 14 glob patterns the scan runs, in scan order: for each extension the
lowercase form, then the uppercase form. -/
def allPatterns : List Name :=
  video_extensions.flatMap (fun e => [e, upperName e])

/-- Modelled from the spec wording of the claim, for comparison with what the
scan does: a name whose extension case-insensitively matches a supported
extension, i.e. whose lowercased form ends in one of the extensions. -/
def extensionMatchesCI (n : Name) : Bool :=
  video_extensions.any (fun e => e.isSuffixOf (n.map Char.toLower))

/-- A video whose every external call succeeds. -/
def vAllOk : VideoEnv := ⟨.ok (), false, .ok "txt", .ok (), .ok ()⟩

/-- A video that processes fine but whose artifact deletion raises. -/
def vUnlinkFail : VideoEnv :=
  ⟨.ok (), false, .ok "txt", .ok (), .raised (.err "EPERM")⟩

/-- A video whose extraction fails leaving a partial file, and whose artifact
deletion also raises. -/
def vExtractUnlinkFail : VideoEnv :=
  ⟨.raised (.err "boom"), true, .ok "txt", .ok (), .raised (.err "EPERM")⟩

/-- A video whose transcription raises; everything else works. -/
def vTransFail : VideoEnv :=
  ⟨.ok (), false, .raised (.err "asr"), .ok (), .ok ()⟩

/-- Environment: two videos in `data/`, the first one's deletion raises. -/
def envUnlinkFail : Env :=
  ⟨true, .ok (), true, ["a.mp4".data, "b.mp4".data],
   fun q => if q = "data/a.mp4".data then vUnlinkFail else vAllOk⟩

/-- Environment: two videos in `data/`, the first one's extraction and
deletion both raise. -/
def envExtractUnlinkFail : Env :=
  ⟨true, .ok (), true, ["a.mp4".data, "b.mp4".data],
   fun q => if q = "data/a.mp4".data then vExtractUnlinkFail else vAllOk⟩

/-- Is a log message the model-resolution event? -/
def isModelResolved : Msg → Bool
  | .modelResolved _ => true
  | _ => false

/-- A video whose extraction is interrupted by the user and whose artifact
deletion raises an ordinary error. -/
def vInterruptUnlinkFail : VideoEnv :=
  ⟨.raised .interrupt, true, .ok "txt", .ok (), .raised (.err "EPERM")⟩

/-- Environment: one video, interrupted during extraction, with a failing
deletion. -/
def envInterrupt : Env :=
  ⟨true, .ok (), true, ["a.mp4".data], fun _ => vInterruptUnlinkFail⟩

/-- Environment: only a non-video file in `data/`, so the scan finds
nothing. -/
def envNoInputs : Env :=
  ⟨true, .ok (), false, ["notes.txt".data], fun _ => vAllOk⟩

/-- Environment: the model load itself is interrupted by the user. -/
def envLoadInterrupt : Env :=
  ⟨true, .raised .interrupt, true, [], fun _ => vAllOk⟩

/-! ### Filesystem lemmas -/

theorem find_filter_ne (l : List (Name × String)) (p q : Name) (h : q ≠ p) :
    (l.filter (fun kv => !(kv.1 == p))).find? (fun kv => kv.1 == q) =
      l.find? (fun kv => kv.1 == q) := by
  induction l with
  | nil => rfl
  | cons kv t ih =>
    by_cases hkv : kv.1 = p
    · have hq : (kv.1 == q) = false := by
        rw [beq_eq_false_iff_ne, hkv]
        exact fun hh => h hh.symm
      have hdrop : (!(kv.1 == p)) = false := by simp [hkv]
      simp [List.filter_cons, List.find?_cons, hdrop, hq, ih]
    · have hkeep : (!(kv.1 == p)) = true := by simp [hkv]
      rw [List.filter_cons]
      simp only [hkeep, if_true]
      rw [List.find?_cons, List.find?_cons]
      cases hq : (kv.1 == q) <;> simp [ih]

@[simp] theorem FS.read_write_self (fs : FS) (p : Name) (c : String) :
    (fs.write p c).read p = some c := by
  simp [FS.write, FS.read, List.find?_cons]

theorem FS.read_write_ne (fs : FS) (p q : Name) (c : String) (h : q ≠ p) :
    (fs.write p c).read q = fs.read q := by
  have hpq : (p == q) = false := by
    simp
    exact fun hh => h hh.symm
  simp [FS.write, FS.read, List.find?_cons, hpq, find_filter_ne _ _ _ h]

@[simp] theorem FS.read_unlink_self (fs : FS) (p : Name) :
    (fs.unlink p).read p = none := by
  have : (fs.files.filter (fun kv => !(kv.1 == p))).find?
      (fun kv => kv.1 == p) = none := by
    rw [List.find?_eq_none]
    intro kv hkv
    have := (List.mem_filter.1 hkv).2
    simpa using this
  simp [FS.unlink, FS.read, this]

theorem FS.read_unlink_ne (fs : FS) (p q : Name) (h : q ≠ p) :
    (fs.unlink p).read q = fs.read q := by
  simp [FS.unlink, FS.read, find_filter_ne _ _ _ h]

@[simp] theorem FS.existsF_write_self (fs : FS) (p : Name) (c : String) :
    (fs.write p c).existsF p = true := by
  simp [FS.existsF]

theorem FS.existsF_write_ne (fs : FS) (p q : Name) (c : String) (h : q ≠ p) :
    (fs.write p c).existsF q = fs.existsF q := by
  simp [FS.existsF, FS.read_write_ne _ _ _ _ h]

@[simp] theorem FS.existsF_unlink_self (fs : FS) (p : Name) :
    (fs.unlink p).existsF p = false := by
  simp [FS.existsF]

theorem FS.existsF_unlink_ne (fs : FS) (p q : Name) (h : q ≠ p) :
    (fs.unlink p).existsF q = fs.existsF q := by
  simp [FS.existsF, FS.read_unlink_ne _ _ _ h]

/-! ### The two per-video paths never collide -/

theorem audioPath_ne_textPath (p : Name) : audioPathOf p ≠ textPathOf p := by
  intro h
  have hl := congrArg List.length h
  simp [audioPathOf, textPathOf, List.length_append] at hl

theorem textPath_ne_audioPath (p : Name) : textPathOf p ≠ audioPathOf p :=
  fun h => audioPath_ne_textPath p h.symm

/-! ### Per-case runs of the try block and of process_video -/

theorem pvTryBody_extract_raised (v : VideoEnv) (fs : FS) (p : Name) (e : PyExc)
    (hx : v.extract = .raised e) :
    pvTryBody v fs p =
      ⟨if v.extractLeavesFile then fs.write (audioPathOf p) audioMarker else fs,
       Msg.extracting (baseName p) :: excLog Msg.extractError e, some e⟩ := by
  simp [pvTryBody, extract_audio, hx]

theorem pvTryBody_transcribe_raised (v : VideoEnv) (fs : FS) (p : Name)
    (e : PyExc) (hx : v.extract = .ok ()) (ht : v.transcribe = .raised e) :
    pvTryBody v fs p =
      ⟨fs.write (audioPathOf p) audioMarker,
       [Msg.extracting (baseName p), Msg.audioSaved (audioPathOf p),
        Msg.transcribing (baseName (audioPathOf p))] ++
         excLog Msg.transcribeError e, some e⟩ := by
  simp [pvTryBody, extract_audio, transcribe_audio, hx, ht]

theorem pvTryBody_save_raised (v : VideoEnv) (fs : FS) (p : Name)
    (t : String) (e : PyExc) (hx : v.extract = .ok ())
    (ht : v.transcribe = .ok t) (hs : v.save = .raised e) :
    pvTryBody v fs p =
      ⟨fs.write (audioPathOf p) audioMarker,
       [Msg.extracting (baseName p), Msg.audioSaved (audioPathOf p),
        Msg.transcribing (baseName (audioPathOf p))] ++ excLog Msg.saveError e,
       some e⟩ := by
  simp [pvTryBody, extract_audio, transcribe_audio, save_text, hx, ht, hs]

theorem pvTryBody_all_ok (v : VideoEnv) (fs : FS) (p : Name) (t : String)
    (hx : v.extract = .ok ()) (ht : v.transcribe = .ok t)
    (hs : v.save = .ok ()) :
    pvTryBody v fs p =
      ⟨(fs.write (audioPathOf p) audioMarker).write (textPathOf p) t,
       [Msg.extracting (baseName p), Msg.audioSaved (audioPathOf p),
        Msg.transcribing (baseName (audioPathOf p)),
        Msg.textSaved (textPathOf p), Msg.processSuccess (baseName p)],
       none⟩ := by
  simp [pvTryBody, extract_audio, transcribe_audio, save_text, hx, ht, hs]

/-- Whenever the cleanup deletion returns normally, no artifact remains after
`process_video`, whatever the body did. -/
theorem pv_artifact_absent (v : VideoEnv) (fs : FS) (p : Name)
    (hu : v.unlink = .ok ()) :
    ((process_video v fs p).fs).existsF (audioPathOf p) = false := by
  rw [process_video]
  simp only [hu]
  split
  · simp
  · rename_i hex
    simpa using hex

/-- C4: for every video and every exit path of its per-video processing in
which the cleanup deletion itself returns normally (success, extraction
failure, transcription failure, or persistence failure — a raising deletion
is a fifth exit path outside the claim's enumeration), the intermediate audio
artifact does not exist once `process_video` completes. -/
theorem claimC4_artifact_never_outlives (v : VideoEnv) (fs : FS) (p : Name)
    (hu : v.unlink = .ok ()) :
    ((process_video v fs p).fs).existsF (audioPathOf p) = false :=
  pv_artifact_absent v fs p hu

/-- C4 witness: a concrete successful run leaves no `output/x_temp.wav`. -/
theorem claimC4_witness :
    ((process_video ⟨.ok (), false, .ok "hello", .ok (), .ok ()⟩ ⟨[]⟩
        "data/x.mp4".data).fs).existsF (audioPathOf "data/x.mp4".data) = false :=
  claimC4_artifact_never_outlives ⟨.ok (), false, .ok "hello", .ok (), .ok ()⟩
    ⟨[]⟩ "data/x.mp4".data rfl

/-- C8: for every successfully processed video, the intermediate audio path
is `output/<stem>_temp.wav` and the transcript path is `output/<stem>.txt`,
and the transcript file afterwards holds exactly the decoded text (verbatim,
overwriting whatever was there before — the initial filesystem is
arbitrary). -/
theorem claimC8_output_paths_and_verbatim_text (v : VideoEnv) (fs : FS)
    (p : Name) (t : String) (hx : v.extract = .ok ())
    (ht : v.transcribe = .ok t) (hs : v.save = .ok ())
    (hu : v.unlink = .ok ()) :
    (process_video v fs p).fs.read (textPathOf p) = some t ∧
      (process_video v fs p).outcome = none ∧
      Msg.processSuccess (baseName p) ∈ (process_video v fs p).log ∧
      audioPathOf p = "output/".data ++ pyStem p ++ "_temp.wav".data ∧
      textPathOf p = "output/".data ++ pyStem p ++ ".txt".data := by
  have hb := pvTryBody_all_ok v fs p t hx ht hs
  have hex : (((fs.write (audioPathOf p) audioMarker).write (textPathOf p)
      t).existsF (audioPathOf p)) = true := by
    rw [FS.existsF_write_ne _ _ _ _ (audioPath_ne_textPath p)]
    simp
  rw [process_video]
  simp only [hb, hu]
  rw [if_pos hex]
  refine ⟨?_, rfl, ?_, rfl, rfl⟩
  · rw [FS.read_unlink_ne _ _ _ (textPath_ne_audioPath p), FS.read_write_self]
  · simp

/-- C8 witness: the concrete successful run writes `hello` to
`output/x.txt`, verbatim, with a prior stale transcript overwritten. -/
theorem claimC8_witness :
    (process_video ⟨.ok (), false, .ok "hello", .ok (), .ok ()⟩
        ⟨[("output/x.txt".data, "stale")]⟩ "data/x.mp4".data).fs.read
        (textPathOf "data/x.mp4".data) = some "hello" :=
  (claimC8_output_paths_and_verbatim_text
    ⟨.ok (), false, .ok "hello", .ok (), .ok ()⟩
    ⟨[("output/x.txt".data, "stale")]⟩ "data/x.mp4".data "hello"
    rfl rfl rfl rfl).1

/-- After a successful extraction the artifact exists when the `finally`
clause checks for it, whatever happened to transcription and saving. -/
theorem pvTryBody_extract_ok_exists (v : VideoEnv) (fs : FS) (p : Name)
    (hx : v.extract = .ok ()) :
    (pvTryBody v fs p).fs.existsF (audioPathOf p) = true := by
  cases ht : v.transcribe with
  | raised e =>
    rw [pvTryBody_transcribe_raised v fs p e hx ht]
    simp
  | ok t =>
    cases hs : v.save with
    | raised e =>
      rw [pvTryBody_save_raised v fs p t e hx ht hs]
      simp
    | ok u =>
      cases u
      rw [pvTryBody_all_ok v fs p t hx ht hs]
      rw [FS.existsF_write_ne _ _ _ _ (audioPath_ne_textPath p)]
      simp

/-- If the artifact exists at cleanup time and `unlink` raises, the raised
exception escapes `process_video` (the `finally` clause is unprotected). -/
theorem pv_unlink_raised_escapes (v : VideoEnv) (fs : FS) (p : Name)
    (e : PyExc) (hx : v.extract = .ok ()) (hu : v.unlink = .raised e) :
    (process_video v fs p).outcome = some e := by
  have hex := pvTryBody_extract_ok_exists v fs p hx
  rw [process_video]
  simp only [hu]
  rw [if_pos hex]

/-- An ordinary exception from extract, transcribe or save is caught by
`except Exception`, logged with the file name and cause, and converted into a
normal return, provided the cleanup deletion does not itself raise. -/
theorem pv_failure_caught (v : VideoEnv) (fs : FS) (p : Name) (m : String)
    (hcase : v.extract = .raised (PyExc.err m) ∨
      (v.extract = .ok () ∧ v.transcribe = .raised (PyExc.err m)) ∨
      (∃ t, v.extract = .ok () ∧ v.transcribe = .ok t ∧
        v.save = .raised (PyExc.err m)))
    (hu : v.unlink = .ok ()) :
    (process_video v fs p).outcome = none ∧
      Msg.processError (baseName p) m ∈ (process_video v fs p).log ∧
      Msg.processSuccess (baseName p) ∉ (process_video v fs p).log := by
  rcases hcase with hx | ⟨hx, ht⟩ | ⟨t, hx, ht, hs⟩
  · have hb := pvTryBody_extract_raised v fs p (PyExc.err m) hx
    rw [process_video]
    simp only [hb, hu, excLog]
    split
    · simp
    · split <;> simp
  · have hb := pvTryBody_transcribe_raised v fs p (PyExc.err m) hx ht
    rw [process_video]
    simp only [hb, hu, excLog]
    split <;> simp
  · have hb := pvTryBody_save_raised v fs p t (PyExc.err m) hx ht hs
    rw [process_video]
    simp only [hb, hu, excLog]
    split <;> simp

/-- Unfolding of the batch loop when the first video's processing returns
normally: the driver just continues with the rest. -/
theorem runBatch_cons_ok (penv : Name → VideoEnv) (fs : FS) (p : Name)
    (rest : List Name)
    (h : (process_video (penv p) fs p).outcome = none) :
    runBatch penv fs (p :: rest) =
      ⟨(runBatch penv (process_video (penv p) fs p).fs rest).fs,
       (process_video (penv p) fs p).log ++
         (runBatch penv (process_video (penv p) fs p).fs rest).log,
       (runBatch penv (process_video (penv p) fs p).fs rest).outcome⟩ := by
  rw [runBatch]
  simp only [h]

/-- If extraction or transcription raised, the transcript file is never
touched: whatever `output/<stem>.txt` held before, it holds afterwards. -/
theorem pv_transcript_unchanged (v : VideoEnv) (fs : FS) (p : Name)
    (e : PyExc)
    (hcase : v.extract = .raised e ∨
      (v.extract = .ok () ∧ v.transcribe = .raised e)) :
    (process_video v fs p).fs.read (textPathOf p) = fs.read (textPathOf p) := by
  have htp := textPath_ne_audioPath p
  rcases hcase with hx | ⟨hx, ht⟩
  · have hb := pvTryBody_extract_raised v fs p e hx
    rw [process_video]
    simp only [hb]
    cases hu : v.unlink <;> split_ifs <;>
      simp [FS.read_unlink_ne _ _ _ htp, FS.read_write_ne _ _ _ _ htp]
  · have hb := pvTryBody_transcribe_raised v fs p e hx ht
    rw [process_video]
    simp only [hb]
    cases hu : v.unlink <;> split_ifs <;>
      simp [FS.read_unlink_ne _ _ _ htp, FS.read_write_ne _ _ _ _ htp]

/-- If extraction or transcription raised, the persist step is never reached:
no `textSaved` message is ever logged by that video's processing. -/
theorem pv_no_textSaved (v : VideoEnv) (fs : FS) (p : Name) (e : PyExc)
    (hcase : v.extract = .raised e ∨
      (v.extract = .ok () ∧ v.transcribe = .raised e)) :
    Msg.textSaved (textPathOf p) ∉ (process_video v fs p).log := by
  rcases hcase with hx | ⟨hx, ht⟩
  · have hb := pvTryBody_extract_raised v fs p e hx
    rw [process_video]
    simp only [hb]
    cases e <;> cases hu : v.unlink <;> simp only [excLog] <;>
      split_ifs <;> simp
  · have hb := pvTryBody_transcribe_raised v fs p e hx ht
    rw [process_video]
    simp only [hb]
    cases e <;> cases hu : v.unlink <;> simp only [excLog] <;>
      split_ifs <;> simp

/-- C5 counterexample: the claim as stated is false.  For the concrete video
`data/x.mp4` whose transcription fails and whose artifact deletion also
fails, the intermediate audio file is NOT deleted: it still exists after the
per-video processing completes (and the deletion error escapes). -/
theorem claimC5_counterexample :
    (process_video ⟨.ok (), false, .raised (PyExc.err "asr"), .ok (),
        .raised (PyExc.err "EPERM")⟩ ⟨[]⟩ "data/x.mp4".data).fs.existsF
        (audioPathOf "data/x.mp4".data) = true ∧
      (process_video ⟨.ok (), false, .raised (PyExc.err "asr"), .ok (),
          .raised (PyExc.err "EPERM")⟩ ⟨[]⟩ "data/x.mp4".data).outcome =
        some (PyExc.err "EPERM") := by
  constructor
  · decide
  · decide

/-- C5 (amended): for every video whose audio extraction or transcription
raises, no transcript file `<stem>.txt` is created or altered for that video
(the persist step is never reached), and the intermediate audio deletion is
still attempted — the artifact is gone whenever that deletion does not
itself fail. -/
theorem claimC5_failed_video_writes_nothing (v : VideoEnv) (fs : FS)
    (p : Name) (e : PyExc)
    (hcase : v.extract = .raised e ∨
      (v.extract = .ok () ∧ v.transcribe = .raised e))
    (hu : v.unlink = .ok ()) :
    (process_video v fs p).fs.read (textPathOf p) = fs.read (textPathOf p) ∧
      Msg.textSaved (textPathOf p) ∉ (process_video v fs p).log ∧
      (process_video v fs p).fs.existsF (audioPathOf p) = false :=
  ⟨pv_transcript_unchanged v fs p e hcase, pv_no_textSaved v fs p e hcase,
    pv_artifact_absent v fs p hu⟩

/-- C5 witness: concrete failing transcription with working deletion; the old
transcript content survives untouched and the artifact is gone. -/
theorem claimC5_witness :
    (process_video ⟨.ok (), false, .raised (PyExc.err "asr"), .ok (),
        .ok ()⟩ ⟨[("output/x.txt".data, "old")]⟩ "data/x.mp4".data).fs.read
        (textPathOf "data/x.mp4".data) =
      FS.read ⟨[("output/x.txt".data, "old")]⟩ (textPathOf "data/x.mp4".data) ∧
      Msg.textSaved (textPathOf "data/x.mp4".data) ∉
        (process_video ⟨.ok (), false, .raised (PyExc.err "asr"), .ok (),
          .ok ()⟩ ⟨[("output/x.txt".data, "old")]⟩ "data/x.mp4".data).log ∧
      (process_video ⟨.ok (), false, .raised (PyExc.err "asr"), .ok (),
          .ok ()⟩ ⟨[("output/x.txt".data, "old")]⟩
          "data/x.mp4".data).fs.existsF (audioPathOf "data/x.mp4".data) =
        false :=
  claimC5_failed_video_writes_nothing
    ⟨.ok (), false, .raised (PyExc.err "asr"), .ok (), .ok ()⟩
    ⟨[("output/x.txt".data, "old")]⟩ "data/x.mp4".data (PyExc.err "asr")
    (Or.inr ⟨rfl, rfl⟩) rfl

/-- C1 counterexample: the claim as stated is false.  For the concrete batch
`a.mp4`, `b.mp4` in which deleting `a`'s artifact raises, the deletion
failure escalates: the exception crosses out of `process_video`, the batch
aborts (`b.mp4` is never processed), and the exit code becomes 1. -/
theorem claimC1_counterexample :
    (process_video vUnlinkFail ⟨[]⟩ "data/a.mp4".data).outcome =
        some (PyExc.err "EPERM") ∧
      (mainRun ⟨"base", none⟩ envUnlinkFail ⟨[]⟩).exit = 1 ∧
      Msg.processingHeader "b.mp4".data ∉
        (mainRun ⟨"base", none⟩ envUnlinkFail ⟨[]⟩).log := by
  refine ⟨by decide, by decide, by decide⟩

/-- C1 (amended): for every video whose intermediate audio artifact exists at
cleanup time (here: extraction succeeded), a failure of the deletion
escalates — the exception crosses out of the per-video processor, reaches
the top-level handler (which reports it as a critical error), and the
process exits with code 1. -/
theorem claimC1_deletion_failure_escalates (a : Args) (env : Env) (fs : FS)
    (p : Name) (m : String) (hf : a.file = some p)
    (hne : p.isEmpty = false) (hfe : env.namedFileExists = true)
    (hld : env.loadResult = .ok ())
    (hx : (env.perVideo p).extract = .ok ())
    (hu : (env.perVideo p).unlink = .raised (PyExc.err m)) :
    (process_video (env.perVideo p) fs p).outcome = some (PyExc.err m) ∧
      (mainRun a env fs).exit = 1 ∧
      Msg.criticalError m ∈ (mainRun a env fs).log ∧
      (mainRun a env fs).topExc = some (PyExc.err m) := by
  have hout := pv_unlink_raised_escapes (env.perVideo p) fs p (PyExc.err m)
    hx hu
  have hmain : mainRun a env fs =
      finishRun (initConverter a.model env).1
        (process_video (env.perVideo p) fs p) := by
    rw [mainRun]
    have h2 : (initConverter a.model env).2 =
        .ok (if env.localModelExists
          then ModelSource.localFile (whisperCachePath a.model)
          else ModelSource.byName a.model) := by
      simp [initConverter, hld]
    rw [h2]
    simp [hf, hne, hfe]
  rw [hmain]
  simp [finishRun, hout]

/-- C1 witness: the amended theorem applied to the concrete
unlink-failure environment. -/
theorem claimC1_witness :
    (process_video (envUnlinkFail.perVideo "data/a.mp4".data) ⟨[]⟩
        "data/a.mp4".data).outcome = some (PyExc.err "EPERM") ∧
      (mainRun ⟨"base", some "data/a.mp4".data⟩ envUnlinkFail ⟨[]⟩).exit = 1 ∧
      Msg.criticalError "EPERM" ∈
        (mainRun ⟨"base", some "data/a.mp4".data⟩ envUnlinkFail ⟨[]⟩).log ∧
      (mainRun ⟨"base", some "data/a.mp4".data⟩ envUnlinkFail ⟨[]⟩).topExc =
        some (PyExc.err "EPERM") :=
  claimC1_deletion_failure_escalates ⟨"base", some "data/a.mp4".data⟩
    envUnlinkFail ⟨[]⟩ "data/a.mp4".data "EPERM" rfl (by decide) rfl rfl
    (by decide) (by decide)

/-- C3 counterexample: the claim as stated is false.  In the concrete batch
`a.mp4`, `b.mp4` where `a`'s extraction fails (caught and logged as the
claim says) but the cleanup deletion then raises, processing does NOT
continue with the next video: the deletion exception crosses into the batch
driver and `b.mp4` is never processed. -/
theorem claimC3_counterexample :
    vExtractUnlinkFail.extract = Outcome.raised (PyExc.err "boom") ∧
      Msg.processError "a.mp4".data "boom" ∈
        (mainRun ⟨"base", none⟩ envExtractUnlinkFail ⟨[]⟩).log ∧
      (mainRun ⟨"base", none⟩ envExtractUnlinkFail ⟨[]⟩).topExc =
        some (PyExc.err "EPERM") ∧
      Msg.processingHeader "b.mp4".data ∉
        (mainRun ⟨"base", none⟩ envExtractUnlinkFail ⟨[]⟩).log := by
  refine ⟨by decide, by decide, by decide, by decide⟩

/-- C3 (amended): for every video in the batch, an ordinary exception raised
during extraction, transcription or persistence is caught inside the
per-video processor, logged with the file name and cause, aborts the
remaining sub-steps of that video only, and — provided the cleanup deletion
does not itself raise — never propagates into the batch driver: the batch
continues with the remaining videos. -/
theorem claimC3_per_video_failure_isolated (penv : Name → VideoEnv) (fs : FS)
    (p : Name) (rest : List Name) (m : String)
    (hcase : (penv p).extract = .raised (PyExc.err m) ∨
      ((penv p).extract = .ok () ∧
        (penv p).transcribe = .raised (PyExc.err m)) ∨
      (∃ t, (penv p).extract = .ok () ∧ (penv p).transcribe = .ok t ∧
        (penv p).save = .raised (PyExc.err m)))
    (hu : (penv p).unlink = .ok ()) :
    (process_video (penv p) fs p).outcome = none ∧
      Msg.processError (baseName p) m ∈ (process_video (penv p) fs p).log ∧
      Msg.processSuccess (baseName p) ∉ (process_video (penv p) fs p).log ∧
      runBatch penv fs (p :: rest) =
        ⟨(runBatch penv (process_video (penv p) fs p).fs rest).fs,
         (process_video (penv p) fs p).log ++
           (runBatch penv (process_video (penv p) fs p).fs rest).log,
         (runBatch penv (process_video (penv p) fs p).fs rest).outcome⟩ := by
  obtain ⟨h1, h2, h3⟩ := pv_failure_caught (penv p) fs p m hcase hu
  exact ⟨h1, h2, h3, runBatch_cons_ok penv fs p rest h1⟩

/-- C3 witness: the amended theorem applied to a concrete two-video batch
whose first video fails to transcribe; the batch continues. -/
theorem claimC3_witness :
    (process_video vTransFail ⟨[]⟩ "data/a.mp4".data).outcome = none ∧
      Msg.processError (baseName "data/a.mp4".data) "asr" ∈
        (process_video vTransFail ⟨[]⟩ "data/a.mp4".data).log ∧
      Msg.processSuccess (baseName "data/a.mp4".data) ∉
        (process_video vTransFail ⟨[]⟩ "data/a.mp4".data).log ∧
      runBatch (fun _ => vTransFail) ⟨[]⟩
          ["data/a.mp4".data, "data/b.mp4".data] =
        ⟨(runBatch (fun _ => vTransFail)
            (process_video vTransFail ⟨[]⟩ "data/a.mp4".data).fs
            ["data/b.mp4".data]).fs,
         (process_video vTransFail ⟨[]⟩ "data/a.mp4".data).log ++
           (runBatch (fun _ => vTransFail)
             (process_video vTransFail ⟨[]⟩ "data/a.mp4".data).fs
             ["data/b.mp4".data]).log,
         (runBatch (fun _ => vTransFail)
           (process_video vTransFail ⟨[]⟩ "data/a.mp4".data).fs
           ["data/b.mp4".data]).outcome⟩ :=
  claimC3_per_video_failure_isolated (fun _ => vTransFail) ⟨[]⟩
    "data/a.mp4".data ["data/b.mp4".data] "asr"
    (Or.inr (Or.inl ⟨rfl, rfl⟩)) rfl

/-! ### Discovery counting (C2) -/

/-- Counting occurrences in a filtered list. -/
theorem count_filter_bool (l : List Name) (q : Name → Bool) (a : Name) :
    (l.filter q).count a = if q a then l.count a else 0 := by
  induction l with
  | nil => simp
  | cons h t ih =>
    by_cases hq : q h <;> by_cases ha : a = h <;>
      simp_all [List.filter_cons, List.count_cons]

/-- A name is discovered once per pattern that matches it: the number of its
occurrences in the scan result is the number of matching patterns times the
number of its occurrences in the directory. -/
theorem count_discover_aux (es : List Name) (dir : List Name) (n : Name) :
    (es.flatMap (fun ext =>
        dir.filter (fun x => ext.isSuffixOf x) ++
          dir.filter (fun x => (upperName ext).isSuffixOf x))).count n =
      ((es.flatMap (fun e => [e, upperName e])).countP
          (fun pat => pat.isSuffixOf n)) * dir.count n := by
  induction es with
  | nil => simp
  | cons e t ih =>
    rw [List.flatMap_cons, List.count_append, List.count_append,
      count_filter_bool, count_filter_bool, ih, List.flatMap_cons]
    rw [List.countP_append]
    simp only [List.countP_cons, List.countP_nil]
    cases h1 : e.isSuffixOf n <;> cases h2 : (upperName e).isSuffixOf n <;>
      first
        | (simp [Nat.add_mul]; omega)
        | simp [Nat.add_mul]

theorem count_discover (dir : List Name) (n : Name) :
    (discoverVideos dir).count n =
      (allPatterns.countP (fun pat => pat.isSuffixOf n)) * dir.count n :=
  count_discover_aux video_extensions dir n

/-- No pattern of the scan is a proper suffix of another: the 14 patterns are
mutually exclusive as suffix tests. -/
theorem allPatterns_exclusive :
    ∀ p ∈ allPatterns, ∀ q ∈ allPatterns, p ≠ q → ¬(p <:+ q) := by decide

theorem allPatterns_nodup : allPatterns.Nodup := by decide

/-- With mutually exclusive patterns, at most one pattern matches any name. -/
theorem countP_suffix_le_one (L : List Name) (n : Name) (hnd : L.Nodup)
    (hexcl : ∀ p ∈ L, ∀ q ∈ L, p ≠ q → ¬(p <:+ q)) :
    L.countP (fun pat => pat.isSuffixOf n) ≤ 1 := by
  induction L with
  | nil => simp
  | cons a t ih =>
    rw [List.countP_cons]
    have hnd2 := (List.nodup_cons.mp hnd).2
    have hamem := (List.nodup_cons.mp hnd).1
    cases ha : a.isSuffixOf n with
    | false =>
      have := ih hnd2 (fun p hp q hq hne => hexcl p (List.mem_cons_of_mem a hp)
        q (List.mem_cons_of_mem a hq) hne)
      simpa using this
    | true =>
      have h1 : a <:+ n := List.isSuffixOf_iff_suffix.mp ha
      have hta : t.countP (fun pat => pat.isSuffixOf n) = 0 := by
        rw [List.countP_eq_zero]
        intro q hq hqc
        have h2 : q <:+ n := List.isSuffixOf_iff_suffix.mp hqc
        have hqa : q ≠ a := fun h => hamem (h ▸ hq)
        rcases List.suffix_or_suffix_of_suffix h1 h2 with h | h
        · exact hexcl a (List.mem_cons_self a t) q (List.mem_cons_of_mem a hq)
            (Ne.symm hqa) h
        · exact hexcl q (List.mem_cons_of_mem a hq) a (List.mem_cons_self a t)
            hqa h
      simp [hta]

/-- C2 counterexample: the claim as stated is false.  The file `x.Mp4` has an
extension that case-insensitively matches `.mp4` (a mixture of upper and
lower case), yet the scan of a directory containing exactly that file
discovers nothing: only the all-lowercase and all-uppercase spellings are
globbed. -/
theorem claimC2_counterexample :
    extensionMatchesCI "x.Mp4".data = true ∧
      discoverVideos ["x.Mp4".data] = [] := by
  refine ⟨by decide, by decide⟩

/-- C2 (amended): a file of the input directory whose name ends in the exact
all-lowercase or the exact all-uppercase spelling of a supported extension is
discovered exactly once (never duplicated); mixed-case spellings are not
discovered at all. -/
theorem claimC2_lower_or_upper_discovered_once (dir : List Name) (n : Name)
    (h1 : dir.count n = 1)
    (hm : ∃ e ∈ video_extensions,
      e.isSuffixOf n = true ∨ (upperName e).isSuffixOf n = true) :
    (discoverVideos dir).count n = 1 := by
  rw [count_discover, h1, Nat.mul_one]
  obtain ⟨e, he, hcase⟩ := hm
  have hmem : ∃ pat ∈ allPatterns, pat.isSuffixOf n = true := by
    rcases hcase with h | h
    · exact ⟨e, List.mem_flatMap.mpr ⟨e, he, by simp⟩, h⟩
    · exact ⟨upperName e, List.mem_flatMap.mpr ⟨e, he, by simp⟩, h⟩
  have hpos : 0 < allPatterns.countP (fun pat => pat.isSuffixOf n) :=
    List.countP_pos_iff.mpr hmem
  have hle := countP_suffix_le_one allPatterns n allPatterns_nodup
    allPatterns_exclusive
  omega

/-- C2 witness: `clip.MP4` (uppercase) in a directory also holding `talk.mp4`
and `notes.txt` is discovered exactly once. -/
theorem claimC2_witness :
    (discoverVideos ["talk.mp4".data, "clip.MP4".data,
        "notes.txt".data]).count "clip.MP4".data = 1 :=
  claimC2_lower_or_upper_discovered_once
    ["talk.mp4".data, "clip.MP4".data, "notes.txt".data] "clip.MP4".data
    (by decide) ⟨".mp4".data, by decide, Or.inr (by decide)⟩

example : FS.read ⟨[("a".data, "x")]⟩ "a".data = some "x" := by decide
example : pyStem "data/a.b.mp4".data = "a.b".data := by decide
example : pyStem "noext".data = "noext".data := by decide
example : baseName "data/x.mp4".data = "x.mp4".data := by decide
example : audioPathOf "data/x.mp4".data = "output/x_temp.wav".data := by decide
example : textPathOf "data/x.mp4".data = "output/x.txt".data := by decide

/-! ### Characterizing the top level -/

theorem finishRun_topExc (L : List Msg) (r : PVRes) :
    (finishRun L r).topExc = r.outcome := by
  rcases ho : r.outcome with _ | e
  · simp [finishRun, ho]
  · cases e <;> simp [finishRun, ho]

theorem finishRun_exit_iff (L : List Msg) (r : PVRes) :
    (finishRun L r).exit = 1 ↔ ∃ m, r.outcome = some (PyExc.err m) := by
  rcases ho : r.outcome with _ | e
  · simp [finishRun, ho]
  · cases e <;> simp [finishRun, ho]

theorem finishRun_exit_or (L : List Msg) (r : PVRes) :
    (finishRun L r).exit = 0 ∨ (finishRun L r).exit = 1 := by
  rcases ho : r.outcome with _ | e
  · simp [finishRun, ho]
  · cases e <;> simp [finishRun, ho]

theorem finishRun_interrupt (L : List Msg) (r : PVRes)
    (h : r.outcome = some PyExc.interrupt) :
    (finishRun L r).exit = 0 ∧ Msg.interrupted ∈ (finishRun L r).log := by
  simp [finishRun, h]

theorem finishRun_mem_log (L : List Msg) (r : PVRes) (msg : Msg)
    (h : msg ∈ r.log) : msg ∈ (finishRun L r).log := by
  rcases ho : r.outcome with _ | e
  · simp [finishRun, ho, h]
  · cases e <;> simp [finishRun, ho, h]

theorem initLog_no_header (model : String) (env : Env) (q : Name) :
    Msg.processingHeader q ∉ (initConverter model env).1 := by
  rw [initConverter]
  cases env.loadResult <;> by_cases h : env.localModelExists <;> simp [h]

theorem initLog_resolved_once (model : String) (env : Env)
    (hld : env.loadResult = .ok ()) :
    (initConverter model env).1.countP isModelResolved = 1 := by
  rw [initConverter]
  rw [hld]
  by_cases h : env.localModelExists <;>
    simp [h, List.countP_cons, isModelResolved]

theorem initConverter_ok (model : String) (env : Env)
    (hld : env.loadResult = .ok ()) :
    (initConverter model env).2 =
      .ok (if env.localModelExists
        then ModelSource.localFile (whisperCachePath model)
        else ModelSource.byName model) := by
  simp [initConverter, hld]

theorem initLog_resolved_mem (model : String) (env : Env)
    (hld : env.loadResult = .ok ()) :
    Msg.modelResolved (if env.localModelExists
        then ModelSource.localFile (whisperCachePath model)
        else ModelSource.byName model) ∈ (initConverter model env).1 := by
  rw [initConverter]
  rw [hld]
  by_cases h : env.localModelExists <;> simp [h]

/-- Exhaustive top-level case analysis of a run: exactly one of the five
regimes applies — fatal initialization error, initialization interrupt,
named file missing, named-file processing, or directory-scan processing. -/
theorem mainRun_cases (a : Args) (env : Env) (fs : FS) :
    (∃ m, env.loadResult = .raised (PyExc.err m) ∧
      mainRun a env fs =
        ⟨fs, (initConverter a.model env).1 ++ [Msg.criticalError m], 1,
         some (PyExc.err m)⟩) ∨
    (env.loadResult = .raised PyExc.interrupt ∧
      mainRun a env fs =
        ⟨fs, (initConverter a.model env).1 ++ [Msg.interrupted], 0,
         some PyExc.interrupt⟩) ∨
    (env.loadResult = .ok () ∧ ∃ p, a.file = some p ∧ p.isEmpty = false ∧
      env.namedFileExists = false ∧
      mainRun a env fs =
        ⟨fs, (initConverter a.model env).1 ++ [Msg.fileNotFound p], 1,
         none⟩) ∨
    (env.loadResult = .ok () ∧ ∃ p, a.file = some p ∧ p.isEmpty = false ∧
      env.namedFileExists = true ∧
      mainRun a env fs =
        finishRun (initConverter a.model env).1
          (process_video (env.perVideo p) fs p)) ∨
    (env.loadResult = .ok () ∧
      (a.file = none ∨ ∃ p, a.file = some p ∧ p.isEmpty = true) ∧
      mainRun a env fs =
        finishRun (initConverter a.model env).1
          (process_all_videos env fs)) := by
  rcases hld : env.loadResult with ⟨u⟩ | e
  · cases u
    have h2 := initConverter_ok a.model env hld
    rcases hf : a.file with _ | p
    · refine Or.inr (Or.inr (Or.inr (Or.inr ⟨rfl, Or.inl rfl, ?_⟩)))
      rw [mainRun, h2]
      simp [hf]
    · by_cases hne : p.isEmpty
      · refine Or.inr (Or.inr (Or.inr (Or.inr ⟨rfl, Or.inr ⟨p, rfl, hne⟩, ?_⟩)))
        rw [mainRun, h2]
        simp [hf, hne]
      · by_cases hfe : env.namedFileExists
        · refine Or.inr (Or.inr (Or.inr (Or.inl
            ⟨rfl, p, rfl, by simpa using hne, hfe, ?_⟩)))
          rw [mainRun, h2]
          simp [hf, hne, hfe]
        · refine Or.inr (Or.inr (Or.inl
            ⟨rfl, p, rfl, by simpa using hne, by simpa using hfe, ?_⟩))
          rw [mainRun, h2]
          simp [hf, hne, hfe]
  · cases e with
    | err m =>
      refine Or.inl ⟨m, rfl, ?_⟩
      have h2 : (initConverter a.model env).2 = .raised (PyExc.err m) := by
        simp [initConverter, hld]
      rw [mainRun, h2]
    | interrupt =>
      refine Or.inr (Or.inl ⟨rfl, ?_⟩)
      have h2 : (initConverter a.model env).2 = .raised PyExc.interrupt := by
        simp [initConverter, hld]
      rw [mainRun, h2]

/-- C6: the process exit code is 0 on normal completion — including the
no-matching-files case, which warns (listing the supported extensions),
processes nothing and leaves the filesystem alone — and is 1 exactly when
the `--file` path does not exist (reachable only once initialization
succeeded), when initialization fails with an ordinary exception, or when an
uncaught ordinary exception reaches the top level (`topExc`). -/
theorem claimC6_exit_codes (a : Args) (env : Env) (fs : FS) :
    ((mainRun a env fs).exit = 0 ∨ (mainRun a env fs).exit = 1) ∧
      ((mainRun a env fs).exit = 1 ↔
        ((∃ m, (mainRun a env fs).topExc = some (PyExc.err m)) ∨
          (env.loadResult = Outcome.ok () ∧ ∃ p, a.file = some p ∧
            p.isEmpty = false ∧ env.namedFileExists = false))) ∧
      (∀ m, env.loadResult = .raised (PyExc.err m) →
        (mainRun a env fs).exit = 1) ∧
      (a.file = none → env.loadResult = .ok () →
        discoverVideos env.dataFiles = [] →
        (mainRun a env fs).exit = 0 ∧
          Msg.noVideosFound ∈ (mainRun a env fs).log ∧
          Msg.supportedFormats video_extensions ∈ (mainRun a env fs).log ∧
          (∀ q, Msg.processingHeader q ∉ (mainRun a env fs).log) ∧
          (mainRun a env fs).fs = fs) := by
  rcases mainRun_cases a env fs with
    ⟨m, hld, hm⟩ | ⟨hld, hm⟩ | ⟨hld, p, hf, hne, hfe, hm⟩ |
    ⟨hld, p, hf, hne, hfe, hm⟩ | ⟨hld, hfile, hm⟩
  · rw [hm]
    refine ⟨Or.inr rfl, ⟨fun _ => Or.inl ⟨m, rfl⟩, fun _ => rfl⟩,
      fun m2 _ => rfl, fun _ hld2 _ => ?_⟩
    rw [hld] at hld2
    cases hld2
  · rw [hm]
    refine ⟨Or.inl rfl, ?_, ?_, ?_⟩
    · simp [hld]
    · intro m2 h2
      rw [hld] at h2
      simp at h2
    · intro _ hld2 _
      rw [hld] at hld2
      cases hld2
  · rw [hm]
    refine ⟨Or.inr rfl, ⟨fun _ => Or.inr ⟨hld, p, hf, hne, hfe⟩,
      fun _ => rfl⟩, ?_, ?_⟩
    · intro m2 h2
      rfl
    · intro hf2 _ _
      rw [hf2] at hf
      cases hf
  · rw [hm]
    refine ⟨finishRun_exit_or _ _, ?_, ?_, ?_⟩
    · simp only [finishRun_exit_iff, finishRun_topExc]
      simp [hf, hfe]
    · intro m2 h2
      rw [hld] at h2
      cases h2
    · intro hf2 _ _
      rw [hf2] at hf
      cases hf
  · rw [hm]
    refine ⟨finishRun_exit_or _ _, ?_, ?_, ?_⟩
    · simp only [finishRun_exit_iff, finishRun_topExc]
      rcases hfile with hf2 | ⟨p, hf2, hpe⟩
      · simp [hf2]
      · have hpnil : p = [] := by simpa using hpe
        subst hpnil
        simp [hf2]
    · intro m2 h2
      rw [hld] at h2
      cases h2
    · intro hf2 hld2 hdisc
      have hpav : process_all_videos env fs =
          ⟨fs, [Msg.noVideosFound, Msg.supportedFormats video_extensions],
           none⟩ := by
        rw [process_all_videos, hdisc]
      rw [hpav]
      refine ⟨rfl, ?_, ?_, ?_, rfl⟩
      · simp [finishRun]
      · simp [finishRun]
      · intro q
        simp only [finishRun]
        simp only [List.mem_append]
        rintro (h | h)
        · exact initLog_no_header a.model env q h
        · simp at h

/-- C6 witness: the empty-scan run — only `notes.txt` in `data/` — exits 0,
warns listing the supported extensions, processes nothing and leaves the
filesystem unchanged. -/
theorem claimC6_witness :
    (mainRun ⟨"base", none⟩ envNoInputs ⟨[]⟩).exit = 0 ∧
      Msg.noVideosFound ∈ (mainRun ⟨"base", none⟩ envNoInputs ⟨[]⟩).log ∧
      Msg.supportedFormats video_extensions ∈
        (mainRun ⟨"base", none⟩ envNoInputs ⟨[]⟩).log ∧
      (∀ q, Msg.processingHeader q ∉
        (mainRun ⟨"base", none⟩ envNoInputs ⟨[]⟩).log) ∧
      (mainRun ⟨"base", none⟩ envNoInputs ⟨[]⟩).fs = ⟨[]⟩ :=
  (claimC6_exit_codes ⟨"base", none⟩ envNoInputs ⟨[]⟩).2.2.2 rfl rfl
    (by decide)

/-- C7 counterexample: the claim as stated is false.  An interrupt arriving
during extraction, combined with a failing artifact deletion, is replaced in
the `finally` block by the deletion error: the run takes the exit-code-1
path and never prints the interrupt notice. -/
theorem claimC7_counterexample :
    vInterruptUnlinkFail.extract = Outcome.raised PyExc.interrupt ∧
      (mainRun ⟨"base", none⟩ envInterrupt ⟨[]⟩).exit = 1 ∧
      Msg.interrupted ∉ (mainRun ⟨"base", none⟩ envInterrupt ⟨[]⟩).log := by
  refine ⟨by decide, by decide, by decide⟩

/-- C7 (amended): a user interrupt that reaches the outermost level — i.e.
one not replaced by a cleanup-deletion error inside a `finally` block — is
caught there, the distinct notice is printed, and the process exits 0 (never
the exit-code-1 path); in particular an interrupt during initialization
always reaches the outermost level. -/
theorem claimC7_interrupt_caught (a : Args) (env : Env) (fs : FS) :
    ((mainRun a env fs).topExc = some PyExc.interrupt →
      (mainRun a env fs).exit = 0 ∧
        Msg.interrupted ∈ (mainRun a env fs).log) ∧
      (env.loadResult = .raised PyExc.interrupt →
        (mainRun a env fs).topExc = some PyExc.interrupt) := by
  rcases mainRun_cases a env fs with
    ⟨m, hld, hm⟩ | ⟨hld, hm⟩ | ⟨hld, p, hf, hne, hfe, hm⟩ |
    ⟨hld, p, hf, hne, hfe, hm⟩ | ⟨hld, hfile, hm⟩
  · rw [hm]
    constructor
    · intro h
      simp at h
    · intro h2
      rw [hld] at h2
      simp at h2
  · rw [hm]
    exact ⟨fun _ => ⟨rfl, by simp⟩, fun _ => rfl⟩
  · rw [hm]
    constructor
    · intro h
      simp at h
    · intro h2
      rw [hld] at h2
      cases h2
  · rw [hm]
    constructor
    · intro h
      rw [finishRun_topExc] at h
      exact finishRun_interrupt _ _ h
    · intro h2
      rw [hld] at h2
      cases h2
  · rw [hm]
    constructor
    · intro h
      rw [finishRun_topExc] at h
      exact finishRun_interrupt _ _ h
    · intro h2
      rw [hld] at h2
      cases h2

/-- C7 witness: a run interrupted during model load is caught at the top,
prints the notice, and exits 0. -/
theorem claimC7_witness :
    (mainRun ⟨"base", none⟩ envLoadInterrupt ⟨[]⟩).topExc =
        some PyExc.interrupt ∧
      (mainRun ⟨"base", none⟩ envLoadInterrupt ⟨[]⟩).exit = 0 ∧
      Msg.interrupted ∈ (mainRun ⟨"base", none⟩ envLoadInterrupt ⟨[]⟩).log := by
  have h := claimC7_interrupt_caught ⟨"base", none⟩ envLoadInterrupt ⟨[]⟩
  have ht := h.2 rfl
  exact ⟨ht, (h.1 ht).1, (h.1 ht).2⟩

/-! ### Model resolution happens once, before any video (C9) -/

theorem pv_log_no_resolve (v : VideoEnv) (fs : FS) (p : Name) :
    (process_video v fs p).log.countP isModelResolved = 0 := by
  cases hx : v.extract with
  | raised e =>
    have hb := pvTryBody_extract_raised v fs p e hx
    rw [process_video]
    simp only [hb]
    cases e <;> cases hu : v.unlink <;> simp only [excLog] <;>
      split_ifs <;> simp [isModelResolved]
  | ok u =>
    cases u
    cases ht : v.transcribe with
    | raised e =>
      have hb := pvTryBody_transcribe_raised v fs p e hx ht
      rw [process_video]
      simp only [hb]
      cases e <;> cases hu : v.unlink <;> simp only [excLog] <;>
        split_ifs <;> simp [isModelResolved]
    | ok t =>
      cases hs : v.save with
      | raised e =>
        have hb := pvTryBody_save_raised v fs p t e hx ht hs
        rw [process_video]
        simp only [hb]
        cases e <;> cases hu : v.unlink <;> simp only [excLog] <;>
          split_ifs <;> simp [isModelResolved]
      | ok u2 =>
        cases u2
        have hb := pvTryBody_all_ok v fs p t hx ht hs
        rw [process_video]
        simp only [hb]
        cases hu : v.unlink <;> split_ifs <;> simp [isModelResolved]

theorem runBatch_log_no_resolve (penv : Name → VideoEnv) (vids : List Name) :
    ∀ fs, (runBatch penv fs vids).log.countP isModelResolved = 0 := by
  induction vids with
  | nil => intro fs; simp [runBatch]
  | cons p rest ih =>
    intro fs
    rw [runBatch]
    rcases ho : (process_video (penv p) fs p).outcome with _ | e
    · simp only [ho]
      simp [List.countP_append, pv_log_no_resolve, ih]
    · simp only [ho]
      simp [pv_log_no_resolve]

theorem pav_log_no_resolve (env : Env) (fs : FS) :
    (process_all_videos env fs).log.countP isModelResolved = 0 := by
  rw [process_all_videos]
  cases hd : discoverVideos env.dataFiles with
  | nil => simp [isModelResolved]
  | cons v vs =>
    rcases ho : (runBatch env.perVideo fs
        ((v :: vs).map (fun n => dataDirName ++ n))).outcome with _ | e
    · simp only [ho]
      simp [List.countP_append, List.countP_cons, isModelResolved,
        runBatch_log_no_resolve]
    · simp only [ho]
      simp [List.countP_cons, isModelResolved, runBatch_log_no_resolve]

theorem finishRun_log_split (L : List Msg) (r : PVRes) :
    ∃ rest, (finishRun L r).log = L ++ rest ∧
      rest.countP isModelResolved = r.log.countP isModelResolved := by
  rcases ho : r.outcome with _ | e
  · exact ⟨r.log, by simp [finishRun, ho], rfl⟩
  · cases e with
    | err m =>
      exact ⟨r.log ++ [Msg.criticalError m], by simp [finishRun, ho],
        by simp [List.countP_append, isModelResolved]⟩
    | interrupt =>
      exact ⟨r.log ++ [Msg.interrupted], by simp [finishRun, ho],
        by simp [List.countP_append, isModelResolved]⟩

/-- C9: when the model load succeeds, the run's log splits into a prefix
containing exactly one model-resolution event — from the local cache file
`whisper/<model>.pt` if it exists, else by name through the library — and a
remainder containing none; no video's processing starts inside that prefix.
Resolution thus happens exactly once per process, before any video. -/
theorem claimC9_model_resolved_once_before_videos (a : Args) (env : Env)
    (fs : FS) (hld : env.loadResult = .ok ()) :
    ∃ pre post, (mainRun a env fs).log = pre ++ post ∧
      pre.countP isModelResolved = 1 ∧
      post.countP isModelResolved = 0 ∧
      Msg.modelResolved (if env.localModelExists
        then ModelSource.localFile (whisperCachePath a.model)
        else ModelSource.byName a.model) ∈ pre ∧
      (∀ q, Msg.processingHeader q ∉ pre) := by
  rcases mainRun_cases a env fs with
    ⟨m, hld2, hm⟩ | ⟨hld2, hm⟩ | ⟨hld2, p, hf, hne, hfe, hm⟩ |
    ⟨hld2, p, hf, hne, hfe, hm⟩ | ⟨hld2, hfile, hm⟩
  · rw [hld] at hld2
    cases hld2
  · rw [hld] at hld2
    cases hld2
  · refine ⟨(initConverter a.model env).1, [Msg.fileNotFound p],
      by rw [hm], initLog_resolved_once a.model env hld,
      by simp [isModelResolved], initLog_resolved_mem a.model env hld,
      fun q => initLog_no_header a.model env q⟩
  · obtain ⟨rest, hsplit, hcnt⟩ := finishRun_log_split
      (initConverter a.model env).1 (process_video (env.perVideo p) fs p)
    refine ⟨(initConverter a.model env).1, rest,
      by rw [hm]; exact hsplit, initLog_resolved_once a.model env hld,
      by rw [hcnt]; exact pv_log_no_resolve (env.perVideo p) fs p,
      initLog_resolved_mem a.model env hld,
      fun q => initLog_no_header a.model env q⟩
  · obtain ⟨rest, hsplit, hcnt⟩ := finishRun_log_split
      (initConverter a.model env).1 (process_all_videos env fs)
    refine ⟨(initConverter a.model env).1, rest,
      by rw [hm]; exact hsplit, initLog_resolved_once a.model env hld,
      by rw [hcnt]; exact pav_log_no_resolve env fs,
      initLog_resolved_mem a.model env hld,
      fun q => initLog_no_header a.model env q⟩

/-- C9 witness: the concrete empty-scan run resolves the model exactly once,
before anything else. -/
theorem claimC9_witness :
    ∃ pre post,
      (mainRun ⟨"base", none⟩ envNoInputs ⟨[]⟩).log = pre ++ post ∧
        pre.countP isModelResolved = 1 ∧
        post.countP isModelResolved = 0 ∧
        Msg.modelResolved (if envNoInputs.localModelExists
          then ModelSource.localFile (whisperCachePath "base")
          else ModelSource.byName "base") ∈ pre ∧
        (∀ q, Msg.processingHeader q ∉ pre) :=
  claimC9_model_resolved_once_before_videos ⟨"base", none⟩ envNoInputs ⟨[]⟩
    rfl

/-! ### The named file bypasses the extension filter (C10) -/

theorem pv_header_logged (v : VideoEnv) (fs : FS) (p : Name) :
    Msg.processingHeader (baseName p) ∈ (process_video v fs p).log := by
  rw [process_video]
  cases hu : v.unlink <;> split_ifs <;> simp

/-- C10: when `--file` names an existing, non-empty path, that path is
handed to the per-video processor unconditionally — the statement quantifies
over every path `p`, with no condition on its extension, so non-video files
are attempted rather than rejected; the supported-extension filter exists
only inside the directory scan. -/
theorem claimC10_named_file_attempted (env : Env) (fs : FS) (model : String)
    (p : Name) (hne : p.isEmpty = false) (hfe : env.namedFileExists = true)
    (hld : env.loadResult = .ok ()) :
    Msg.processingHeader (baseName p) ∈
      (mainRun ⟨model, some p⟩ env fs).log := by
  rcases mainRun_cases ⟨model, some p⟩ env fs with
    ⟨m, hld2, hm⟩ | ⟨hld2, hm⟩ | ⟨hld2, p2, hf, hne2, hfe2, hm⟩ |
    ⟨hld2, p2, hf, hne2, hfe2, hm⟩ | ⟨hld2, hfile, hm⟩
  · rw [hld] at hld2
    cases hld2
  · rw [hld] at hld2
    cases hld2
  · rw [hfe] at hfe2
    cases hfe2
  · have hp2 : p2 = p := by
      have : some p = some p2 := hf
      exact (Option.some.injEq p p2 ▸ this).symm
    subst hp2
    rw [hm]
    exact finishRun_mem_log _ _ _ (pv_header_logged (env.perVideo p2) fs p2)
  · rcases hfile with hf2 | ⟨p2, hf2, hpe⟩
    · cases hf2
    · have hp2 : p2 = p := by
        have h3 : some p = some p2 := hf2
        cases h3
        rfl
      subst hp2
      rw [hne] at hpe
      cases hpe

/-- C10 witness: a `.txt` file — whose extension matches no supported video
extension even case-insensitively — is still handed to the per-video
processor when named via `--file`. -/
theorem claimC10_witness :
    extensionMatchesCI "notes.txt".data = false ∧
      Msg.processingHeader (baseName "notes.txt".data) ∈
        (mainRun ⟨"base", some "notes.txt".data⟩ envUnlinkFail ⟨[]⟩).log :=
  ⟨by decide, claimC10_named_file_attempted envUnlinkFail ⟨[]⟩ "base"
    "notes.txt".data (by decide) rfl rfl⟩
